import Mathlib

/-!
Shallow embedding of the wethu room-synchronization core
(`server/internal/rooms/room.go`, `server/internal/rooms/manager.go`,
`server/internal/ws/handler.go`, `server/internal/hertzws/handler.go`).

Go maps are modelled as association lists with replace-on-insert
semantics; Go channels of capacity 8 (a participant's `send` mailbox) are
modelled as lists bounded by `sendCap`, where a non-blocking send on a
full channel drops the message.  `time.Time` values are carried as `Int`
(the zero value being `0`, matching `IsZero`), and `float64` positions are
carried as `Int`: the Go code only ever stores and copies positions,
never computes with them, so any value carrier is faithful.  Serialized
message bytes (`json.Marshal` output) are modelled by the envelope value
itself; marshalling of the envelopes the server builds never fails.
-/

namespace Wethu

/-- Lookup in an association list modelling a Go map read `m[k]`. -/
def alookup {α : Type} (l : List (String × α)) (k : String) : Option α :=
  match l with
  | [] => none
  | (k2, v) :: rest => if k2 = k then some v else alookup rest k

/-- Insert modelling a Go map write `m[k] = v`: replaces the value if the
key is present, otherwise appends a new entry. -/
def ainsert {α : Type} (l : List (String × α)) (k : String) (v : α) : List (String × α) :=
  match l with
  | [] => [(k, v)]
  | (k2, v2) :: rest => if k2 = k then (k2, v) :: rest else (k2, v2) :: ainsert rest k v

/-- Deletion modelling Go `delete(m, k)`: drops every entry stored under
`k` (the insert above keeps keys unique, so at most one is dropped, as
in a Go map). -/
def aerase {α : Type} (l : List (String × α)) (k : String) : List (String × α) :=
  match l with
  | [] => []
  | (k2, v) :: rest => if k2 = k then aerase rest k else (k2, v) :: aerase rest k

/-- Model of `protocol.RoomState`: the immutable snapshot value. -/
structure RoomState where
  roomId : String
  videoUrl : String
  isPlaying : Bool
  position : Int
  ownerId : String
  updatedAt : Int
  deriving DecidableEq, Repr

/-- Model of `protocol.Envelope`: outbound wire message.  The server only ever
builds `ROOM_STATE` and `ERROR` envelopes, so the `interface{}` payload
is modelled by this closed sum. -/
inductive Envelope where
  | roomStateEnv (room : RoomState)
  | errorEnv (code message : String)
  deriving DecidableEq, Repr

/-- Model of `rooms.Participant`: identity, token, host flag and the bounded
outbound mailbox (`send chan []byte` of capacity 8). -/
structure Participant where
  id : String
  name : String
  token : String
  isHost : Bool
  mailbox : List Envelope
  deriving DecidableEq, Repr

/-- The error values of package `rooms`. -/
inductive RoomErr where
  | roomNotFound
  | participantNotFound
  | invalidToken
  | unauthorizedControl
  deriving DecidableEq, Repr

/-- Model of `rooms.Room`: the authoritative per-room state. -/
structure Room where
  id : String
  ownerID : String
  videoURL : String
  isPlaying : Bool
  position : Int
  updatedAt : Int
  participants : List (String × Participant)
  tokenIndex : List (String × String)
  deriving DecidableEq, Repr

/-- Embedding of `rooms.NewRoom`. -/
def NewRoom (roomID ownerID videoURL : String) (now : Int) : Room :=
  { id := roomID
    ownerID := ownerID
    videoURL := videoURL
    isPlaying := false
    position := 0
    updatedAt := now
    participants := []
    tokenIndex := [] }

/-- Embedding of `Room.AttachParticipant`.  If the userID already exists only the
participant's `Token` field is overwritten (the token index is not
touched and `OwnerID` is not reassigned); otherwise a fresh participant
with an empty mailbox is inserted, the token is indexed, and `OwnerID`
is set when `isHost` is true.  Both branches of the Go function return
`nil`, modelled by the `Option RoomErr` component. -/
def AttachParticipant (r : Room) (userID name token : String) (isHost : Bool) :
    Room × Option RoomErr :=
  match alookup r.participants userID with
  | some p =>
      ({ r with participants := ainsert r.participants userID { p with token := token } }, none)
  | none =>
      let p : Participant :=
        { id := userID, name := name, token := token, isHost := isHost, mailbox := [] }
      ({ r with
          participants := ainsert r.participants userID p
          tokenIndex := ainsert r.tokenIndex token userID
          ownerID := if isHost then userID else r.ownerID }, none)

/-- Embedding of `Room.FindByToken`. -/
def FindByToken (r : Room) (token : String) : Except RoomErr Participant :=
  match alookup r.tokenIndex token with
  | none => .error .invalidToken
  | some userID =>
      match alookup r.participants userID with
      | none => .error .participantNotFound
      | some p => .ok p

/-- Embedding of `Room.StateSnapshot`. -/
def StateSnapshot (r : Room) : RoomState :=
  { roomId := r.id
    videoUrl := r.videoURL
    isPlaying := r.isPlaying
    position := r.position
    ownerId := r.ownerID
    updatedAt := r.updatedAt }

/-- Capacity of a participant's `send` channel (`make(chan []byte, 8)`). -/
def sendCap : Nat := 8

/-- Embedding of `Room.sendToParticipant`: the non-blocking `select` send — enqueue
when the buffered channel has room, otherwise drop the message. -/
def sendToParticipant (p : Participant) (data : Envelope) : Participant :=
  if p.mailbox.length < sendCap then { p with mailbox := p.mailbox ++ [data] } else p

/-- Embedding of `Room.Broadcast`: serializes once and hands the message to
`sendToParticipant` exactly once per attached participant.  Whether the
Go code uses the direct loop or the worker pool (above 10 participants),
the per-participant effect is one `sendToParticipant` call. -/
def Broadcast (r : Room) (e : Envelope) : Room :=
  { r with participants := r.participants.map (fun kp => (kp.1, sendToParticipant kp.2 e)) }

/-- Embedding of `Participant.Send`: serialize, then the same non-blocking
enqueue-or-drop `select` as `sendToParticipant`.  (The Go guards for a
marshal failure and a nil channel never fire for the envelopes and
participants the server constructs.) -/
def Send (p : Participant) (e : Envelope) : Participant :=
  if p.mailbox.length < sendCap then { p with mailbox := p.mailbox ++ [e] } else p

/-- Model of `protocol.ControlPayload`. -/
structure ControlPayload where
  position : Int
  videoURL : Option String
  playing : Option Bool
  issuedAt : Int
  deriving DecidableEq, Repr

/-- Model of `protocol.ControlMessage`. -/
structure ControlMessage where
  type : String
  roomId : String
  sender : String
  payload : ControlPayload
  deriving DecidableEq, Repr

/-- Embedding of `Room.ApplyControl`. -/
def ApplyControl (r : Room) (senderID : String) (c : ControlMessage) :
    Room × Except RoomErr RoomState :=
  match alookup r.participants senderID with
  | none => (r, .error .unauthorizedControl)
  | some p =>
      if !p.isHost then (r, .error .unauthorizedControl)
      else
        let r2 : Room :=
          { r with
              position := c.payload.position
              videoURL := match c.payload.videoURL with
                          | some u => u
                          | none => r.videoURL
              isPlaying := match c.payload.playing with
                           | some b => b
                           | none => r.isPlaying
              updatedAt := c.payload.issuedAt }
        (r2, .ok (StateSnapshot r2))

/-- Embedding of `Room.DetachParticipant`: deletes the token-index entry for the
participant's current token (when non-empty), closes the mailbox and
removes the participant; a miss is a no-op. -/
def DetachParticipant (r : Room) (participantID : String) : Room :=
  match alookup r.participants participantID with
  | none => r
  | some p =>
      { r with
          tokenIndex := if p.token ≠ "" then aerase r.tokenIndex p.token else r.tokenIndex
          participants := aerase r.participants participantID }

/-- Embedding of `Room.ParticipantCount`. -/
def ParticipantCount (r : Room) : Nat :=
  r.participants.length

/-- Embedding of `rooms.generateID`: `rand.Intn(900) + 10` formatted as
`"%s_%d"`.  The random draw is the `Fin 900` argument (`rand.Intn(900)`
returns a uniform value in `[0, 900)`); the commented-out `rand.Read`
path is dead code and not modelled. -/
def generateID (pfx : String) (draw : Fin 900) : String :=
  pfx ++ "_" ++ toString (draw.val + 10)

/-- A room instance held by the manager's registry.  Go compares room
pointers (`current == room`); pointer identity is modelled by the `ref`
tag, which distinguishes instances whose fields happen to coincide. -/
structure RoomInstance where
  ref : Nat
  room : Room
  deriving DecidableEq, Repr

/-- Model of `rooms.Manager`: the process-wide registry of rooms keyed by id. -/
structure Manager where
  rooms : List (String × RoomInstance)
  deriving DecidableEq, Repr

/-- Embedding of `Manager.CleanupRoom`: skip when the room still has participants;
otherwise delete the registry entry for `room.ID()` only when the entry
is that exact instance (pointer comparison, modelled by `ref`).  The Go
nil-receiver guard has no counterpart: every `RoomInstance` is a real
room. -/
def CleanupRoom (m : Manager) (inst : RoomInstance) : Manager :=
  if ParticipantCount inst.room > 0 then m
  else
    match alookup m.rooms inst.room.id with
    | some current => if current.ref = inst.ref then { m with rooms := aerase m.rooms inst.room.id } else m
    | none => m

/-- Embedding of `Manager.JoinRoom`, with the registry flattened to rooms and the two
generated ids passed in as the values `generateID` produced: lookup the
room, attach as non-host, and propagate an attach error (the Go
`if err != nil` branch).  The session construction is elided; the result
is the room after attach. -/
def JoinRoom (rooms : List (String × Room)) (roomID displayName userID token : String) :
    Except RoomErr Room :=
  match alookup rooms roomID with
  | none => .error .roomNotFound
  | some room =>
      match AttachParticipant room userID displayName token false with
      | (_, some err) => .error err
      | (room2, none) => .ok room2

/-- An inbound frame as the read loops classify it
(`ws/handler.go` `readLoop`, `hertzws/handler.go` `readLoop` with
`handleControlMessage`/`handleSyncRequest`).  `malformed` is a frame
whose top-level `json.Unmarshal` into `InboundEnvelope` fails;
`control none` (resp. `syncRequest none`) is a `CONTROL`
(resp. `SYNC_REQUEST`) envelope whose payload fails to parse. -/
inductive Frame where
  | malformed
  | control (payload : Option ControlMessage)
  | syncRequest (hasPayload : Bool)
  | unknown (kind : String)
  deriving DecidableEq, Repr

/-- Embedding of `participant.Send(...)` as seen from the room: replace the sender's
mailbox by the enqueue-or-drop result. -/
def sendToPid (r : Room) (pid : String) (e : Envelope) : Room :=
  match alookup r.participants pid with
  | none => r
  | some p => { r with participants := ainsert r.participants pid (Send p e) }

/-- The message lifted to Go's `err.Error()` for `control_failed`. -/
def errText : RoomErr → String
  | .roomNotFound => "room not found"
  | .participantNotFound => "participant not found"
  | .invalidToken => "invalid token"
  | .unauthorizedControl => "only host can control playback"

/-- One iteration of the connection read loop on a decoded frame for the
bound participant `pid`.  Both handlers agree: a malformed top-level
frame or an unparseable payload is logged and skipped with no reply; a
non-host `CONTROL` earns an `ERROR unauthorized` envelope to the sender
before the payload is even parsed; a host `CONTROL` defaults a zero
`issuedAt` to the receipt time `now`, applies the control and broadcasts
the post-update snapshot (an `ApplyControl` failure would earn
`ERROR control_failed` to the sender only); a `SYNC_REQUEST` answers the
requester alone with the current snapshot; any other kind earns
`ERROR unknown_kind` to the sender only. -/
def readLoopStep (r : Room) (pid : String) (now : Int) (f : Frame) : Room :=
  match f with
  | .malformed => r
  | .syncRequest false => r
  | .syncRequest true => sendToPid r pid (.roomStateEnv (StateSnapshot r))
  | .unknown _ => sendToPid r pid (.errorEnv "unknown_kind" "unsupported message type")
  | .control mc =>
      match alookup r.participants pid with
      | none => r
      | some p =>
          if !p.isHost then
            sendToPid r pid (.errorEnv "unauthorized" "only host can control playback")
          else
            match mc with
            | none => r
            | some control =>
                let control2 :=
                  if control.payload.issuedAt = 0 then
                    { control with payload := { control.payload with issuedAt := now } }
                  else control
                match ApplyControl r pid control2 with
                | (r2, .ok state) => Broadcast r2 (.roomStateEnv state)
                | (r2, .error e) => sendToPid r2 pid (.errorEnv "control_failed" (errText e))

/-- The room-level operations a connection or the manager can drive,
used to range over reachable room states. -/
inductive Op where
  | attach (userID name token : String) (isHost : Bool)
  | detach (participantID : String)
  | control (senderID : String) (c : ControlMessage)
  deriving DecidableEq, Repr

/-- Apply one operation to a room (errors discarded: the room component
of the result). -/
def applyOp (r : Room) : Op → Room
  | .attach u n t h => (AttachParticipant r u n t h).1
  | .detach pid => DetachParticipant r pid
  | .control s c => (ApplyControl r s c).1

/-- Apply a whole operation sequence in order. -/
def applyOps (r : Room) (ops : List Op) : Room :=
  ops.foldl applyOp r

/-- Predicate on operations: any attach with the host flag set uses the
given userID.  This is how `Manager` drives a room: only `CreateRoom`
attaches with `isHost = true`, once, with the creation owner id. -/
def opHostOk (u0 : String) : Op → Bool
  | .attach u _ _ true => u = u0
  | _ => true

/-- Ownership invariant for a room whose only host attaches used `u0`:
the owner id is `u0`, every attached participant is stored under its own
id, and every attached host participant is stored under `u0`. -/
def OwnerInv (u0 : String) (r : Room) : Prop :=
  r.ownerID = u0 ∧
    ∀ k p, alookup r.participants k = some p → p.id = k ∧ (p.isHost = true → k = u0)

/-! ### Concrete fixtures used by witnesses and counterexamples -/

/-- The host participant of the example room, as `AttachParticipant`
builds it. -/
def hostP : Participant :=
  { id := "user_1", name := "alice", token := "tok_1", isHost := true, mailbox := [] }

/-- An example room with its host attached (the state `CreateRoom`
leaves behind). -/
def rEx : Room :=
  (AttachParticipant (NewRoom "room_1" "user_1" "http://v" 0) "user_1" "alice" "tok_1" true).1

/-- The example room after a guest joined. -/
def rEx2 : Room := (AttachParticipant rEx "user_2" "bob" "tok_2" false).1

/-- A control message as sent by the guest. -/
def cEx : ControlMessage :=
  { type := "CONTROL", roomId := "room_1", sender := "user_2",
    payload := { position := 5, videoURL := some "http://w", playing := some true, issuedAt := 7 } }

/-- A host control message whose `issuedAt` is older than the room's
current `updatedAt`. -/
def cOld : ControlMessage :=
  { type := "CONTROL", roomId := "room_1", sender := "user_1",
    payload := { position := 3, videoURL := none, playing := none, issuedAt := -5 } }

/-- A participant whose mailbox is at capacity. -/
def pFull : Participant :=
  { id := "user_3", name := "carl", token := "tok_3", isHost := false,
    mailbox := List.replicate 8 (Envelope.errorEnv "x" "y") }

/-- The example room with an additional saturated participant. -/
def rBq : Room := { rEx2 with participants := ainsert rEx2.participants "user_3" pFull }

/-- An example registry instance and manager for cleanup. -/
def instEx : RoomInstance := { ref := 1, room := NewRoom "room_1" "user_1" "http://v" 0 }

/-- A manager holding exactly the example instance. -/
def mEx : Manager := { rooms := [("room_1", instEx)] }

/-- A reconnect-with-new-token history: `user_7` attaches with `tok_a`,
then re-attaches with `tok_b`. -/
def rRe : Room :=
  (AttachParticipant
    ((AttachParticipant (NewRoom "room_7" "user_7" "http://v" 0) "user_7" "alice" "tok_a" true).1)
    "user_7" "alice" "tok_b" true).1

/-- An example operation sequence: host attach, guest attach, guest
detach. -/
def opsEx : List Op :=
  [Op.attach "user_1" "alice" "tok_1" true,
   Op.attach "user_2" "bob" "tok_2" false,
   Op.detach "user_2"]

/-- An example broadcast envelope. -/
def eEx : Envelope := .roomStateEnv (StateSnapshot rEx)

/-- A room where `AttachParticipant` was driven with `isHost = true` for
two distinct user ids. -/
def rTwoHosts : Room :=
  (AttachParticipant
    ((AttachParticipant (NewRoom "room_6" "" "http://v" 0) "user_a" "ann" "tok_c" true).1)
    "user_b" "ben" "tok_d" true).1

/-- The guest participant of `rEx2`, as `AttachParticipant` builds it. -/
def guestP : Participant :=
  { id := "user_2", name := "bob", token := "tok_2", isHost := false, mailbox := [] }

/-! ### Association-list lemmas -/

theorem alookup_ainsert_self {α : Type} (l : List (String × α)) (k : String) (v : α) :
    alookup (ainsert l k v) k = some v := by
  induction l with
  | nil => simp [ainsert, alookup]
  | cons hd tl ih =>
      obtain ⟨k2, v2⟩ := hd
      by_cases h : k2 = k
      · subst h; simp [ainsert, alookup]
      · simp [ainsert, alookup, h, ih]

theorem alookup_ainsert_ne {α : Type} (l : List (String × α)) (k k2 : String) (v : α)
    (h : k2 ≠ k) : alookup (ainsert l k v) k2 = alookup l k2 := by
  induction l with
  | nil =>
      have hk : ¬(k = k2) := fun hh => h hh.symm
      simp [ainsert, alookup, hk]
  | cons hd tl ih =>
      obtain ⟨k3, v3⟩ := hd
      by_cases h3 : k3 = k
      · subst h3
        have hk : ¬(k3 = k2) := fun hh => h hh.symm
        simp [ainsert, alookup, hk]
      · simp [ainsert, alookup, h3, ih]

theorem alookup_aerase {α : Type} (l : List (String × α)) (k k2 : String) :
    alookup (aerase l k) k2 = if k2 = k then none else alookup l k2 := by
  induction l with
  | nil => simp [aerase, alookup]
  | cons hd tl ih =>
      obtain ⟨k3, v3⟩ := hd
      by_cases h3 : k3 = k
      · subst h3
        by_cases h2 : k2 = k3
        · subst h2; simp [aerase, alookup, ih]
        · have hk : ¬(k3 = k2) := fun hh => h2 hh.symm
          simp [aerase, alookup, ih, h2, hk]
      · by_cases h2 : k3 = k2
        · subst h2
          have hk : ¬(k3 = k) := h3
          simp [aerase, alookup, h3, hk]
        · simp [aerase, alookup, h3, h2, ih]

theorem alookup_map_val {α β : Type} (l : List (String × α)) (f : α → β) (k : String) :
    alookup (l.map (fun kp => (kp.1, f kp.2))) k = (alookup l k).map f := by
  induction l with
  | nil => simp [alookup]
  | cons hd tl ih =>
      obtain ⟨k2, v⟩ := hd
      by_cases h : k2 = k <;> simp [alookup, h, ih]

theorem detach_not_mem (r : Room) (pid : String)
    (h : alookup r.participants pid = none) : DetachParticipant r pid = r := by
  simp [DetachParticipant, h]

/-! ### Claim theorems -/

/-- C9: `DetachParticipant` is idempotent — detaching an id that is
absent (in particular one already removed by a first detach) is a no-op
on the whole room state, and a second detach equals the first. -/
theorem detachParticipant_idempotent (r : Room) (pid : String) :
    DetachParticipant (DetachParticipant r pid) pid = DetachParticipant r pid ∧
    (alookup r.participants pid = none → DetachParticipant r pid = r) := by
  constructor
  · apply detach_not_mem
    cases h : alookup r.participants pid with
    | none => rw [detach_not_mem r pid h]; exact h
    | some p => simp [DetachParticipant, h, alookup_aerase]
  · exact detach_not_mem r pid

/-- Witness for C9 at a concrete room and an absent id. -/
theorem detachParticipant_idempotent_witness :
    alookup rEx.participants "user_9" = none ∧ DetachParticipant rEx "user_9" = rEx :=
  ⟨by decide, (detachParticipant_idempotent rEx "user_9").2 (by decide)⟩

/-- C10: `AttachParticipant` returns no error for any input — both
branches of the Go function return `nil` — so the only error `JoinRoom`
can surface is `RoomNotFound`; the branch handling a non-nil attach
result is unreachable. -/
theorem attachParticipant_never_errors :
    (∀ (r : Room) (u n t : String) (h : Bool), (AttachParticipant r u n t h).2 = none) ∧
    (∀ (rs : List (String × Room)) (roomID dn uid tok : String) (e : RoomErr),
        JoinRoom rs roomID dn uid tok = .error e → e = .roomNotFound) := by
  have hA : ∀ (r : Room) (u n t : String) (h : Bool), (AttachParticipant r u n t h).2 = none := by
    intro r u n t h
    cases hl : alookup r.participants u <;> simp [AttachParticipant, hl]
  refine ⟨hA, ?_⟩
  intro rs roomID dn uid tok e hj
  cases hl : alookup rs roomID with
  | none =>
      simp [JoinRoom, hl] at hj
      exact hj.symm
  | some room =>
      have h2 := hA room uid dn tok false
      rcases hap : AttachParticipant room uid dn tok false with ⟨r2, oe⟩
      rw [hap] at h2
      simp at h2
      subst h2
      simp [JoinRoom, hl, hap] at hj

/-- Witness for C10: joining an empty registry yields `RoomNotFound`. -/
theorem attachParticipant_never_errors_witness :
    JoinRoom ([] : List (String × Room)) "room_9" "bob" "user_9" "tok_9" =
      .error .roomNotFound ∧ RoomErr.roomNotFound = RoomErr.roomNotFound :=
  ⟨by rfl, attachParticipant_never_errors.2 [] "room_9" "bob" "user_9" "tok_9"
      .roomNotFound (by rfl)⟩

/-- C4: when the sender id is not an attached host participant,
`ApplyControl` returns `UnauthorizedControl`, leaves the room untouched,
and the snapshot after the failed call equals the snapshot before it,
for every control payload. -/
theorem applyControl_nonhost_rejected (r : Room) (senderID : String) (c : ControlMessage)
    (h : (alookup r.participants senderID).map Participant.isHost ≠ some true) :
    ApplyControl r senderID c = (r, .error .unauthorizedControl) ∧
    StateSnapshot (ApplyControl r senderID c).1 = StateSnapshot r := by
  have h1 : ApplyControl r senderID c = (r, .error .unauthorizedControl) := by
    cases hl : alookup r.participants senderID with
    | none => simp [ApplyControl, hl]
    | some p =>
        have hb : p.isHost = false := by
          rw [hl] at h
          simpa using h
        simp [ApplyControl, hl, hb]
  exact ⟨h1, by rw [h1]⟩

/-- Witness for C4: the guest's control message is rejected and the
snapshot is unchanged. -/
theorem applyControl_nonhost_rejected_witness :
    (alookup rEx2.participants "user_2").map Participant.isHost ≠ some true ∧
    (ApplyControl rEx2 "user_2" cEx = (rEx2, .error .unauthorizedControl) ∧
     StateSnapshot (ApplyControl rEx2 "user_2" cEx).1 = StateSnapshot rEx2) :=
  ⟨by decide, applyControl_nonhost_rejected rEx2 "user_2" cEx (by decide)⟩

/-- C5: a control message from the attached host sets `position`
unconditionally, updates `videoUrl` and `isPlaying` only when the
optional field is present, overwrites `updatedAt` with the message's
`issuedAt` unconditionally (even when older than the current value), and
returns the post-update snapshot; the participant and token maps and the
owner are untouched. -/
theorem applyControl_host_semantics (r : Room) (senderID : String) (c : ControlMessage)
    (p : Participant) (hp : alookup r.participants senderID = some p)
    (hh : p.isHost = true) :
    (ApplyControl r senderID c).1.position = c.payload.position ∧
    (c.payload.videoURL = none → (ApplyControl r senderID c).1.videoURL = r.videoURL) ∧
    (∀ u, c.payload.videoURL = some u → (ApplyControl r senderID c).1.videoURL = u) ∧
    (c.payload.playing = none → (ApplyControl r senderID c).1.isPlaying = r.isPlaying) ∧
    (∀ b, c.payload.playing = some b → (ApplyControl r senderID c).1.isPlaying = b) ∧
    (ApplyControl r senderID c).1.updatedAt = c.payload.issuedAt ∧
    (ApplyControl r senderID c).2 = .ok (StateSnapshot (ApplyControl r senderID c).1) ∧
    (ApplyControl r senderID c).1.participants = r.participants ∧
    (ApplyControl r senderID c).1.tokenIndex = r.tokenIndex ∧
    (ApplyControl r senderID c).1.ownerID = r.ownerID := by
  cases hv : c.payload.videoURL <;> cases hb : c.payload.playing <;>
    simp [ApplyControl, StateSnapshot, hp, hh, hv, hb]

/-- Witness for C5: the host applies a control whose `issuedAt` (-5) is
older than the room's current `updatedAt` (0); it still lands. -/
theorem applyControl_host_semantics_witness :
    alookup rEx.participants "user_1" = some hostP ∧ hostP.isHost = true ∧
    ((ApplyControl rEx "user_1" cOld).1.position = cOld.payload.position ∧
     (cOld.payload.videoURL = none → (ApplyControl rEx "user_1" cOld).1.videoURL = rEx.videoURL) ∧
     (∀ u, cOld.payload.videoURL = some u → (ApplyControl rEx "user_1" cOld).1.videoURL = u) ∧
     (cOld.payload.playing = none → (ApplyControl rEx "user_1" cOld).1.isPlaying = rEx.isPlaying) ∧
     (∀ b, cOld.payload.playing = some b → (ApplyControl rEx "user_1" cOld).1.isPlaying = b) ∧
     (ApplyControl rEx "user_1" cOld).1.updatedAt = cOld.payload.issuedAt ∧
     (ApplyControl rEx "user_1" cOld).2 = .ok (StateSnapshot (ApplyControl rEx "user_1" cOld).1) ∧
     (ApplyControl rEx "user_1" cOld).1.participants = rEx.participants ∧
     (ApplyControl rEx "user_1" cOld).1.tokenIndex = rEx.tokenIndex ∧
     (ApplyControl rEx "user_1" cOld).1.ownerID = rEx.ownerID) :=
  ⟨by decide, rfl, applyControl_host_semantics rEx "user_1" cOld hostP (by decide) rfl⟩

/-- C7: `Broadcast` performs one non-blocking enqueue per attached
participant — a full mailbox is skipped with the message dropped and the
mailbox unchanged, a non-full mailbox receives the message appended —
and `Send` is exactly the same enqueue-or-drop policy as the
per-participant step of `Broadcast`. -/
theorem broadcast_send_drop_policy (r : Room) (e : Envelope) (k : String) (p : Participant)
    (h : alookup r.participants k = some p) :
    alookup (Broadcast r e).participants k = some (Send p e) ∧
    (sendCap ≤ p.mailbox.length → (Send p e).mailbox = p.mailbox) ∧
    (p.mailbox.length < sendCap → (Send p e).mailbox = p.mailbox ++ [e]) ∧
    Send p e = sendToParticipant p e := by
  refine ⟨?_, ?_, ?_, rfl⟩
  · have hm := alookup_map_val r.participants (fun v => sendToParticipant v e) k
    rw [h] at hm
    exact hm
  · intro hge; simp [Send, Nat.not_lt.mpr hge]
  · intro hlt; simp [Send, hlt]

/-- Witness for C7: the saturated participant's mailbox stays at its 8
queued messages after a broadcast. -/
theorem broadcast_send_drop_policy_witness :
    alookup rBq.participants "user_3" = some pFull ∧
    (alookup (Broadcast rBq eEx).participants "user_3" = some (Send pFull eEx) ∧
     (sendCap ≤ pFull.mailbox.length → (Send pFull eEx).mailbox = pFull.mailbox) ∧
     (pFull.mailbox.length < sendCap → (Send pFull eEx).mailbox = pFull.mailbox ++ [eEx]) ∧
     Send pFull eEx = sendToParticipant pFull eEx) :=
  ⟨by decide, broadcast_send_drop_policy rBq eEx "user_3" pFull (by decide)⟩

/-- C8: `CleanupRoom` deletes the registry entry for the instance's room
id iff the instance has no participants and the registry still holds
that exact instance; a different instance registered under the same id
is never deleted, and other ids are untouched. -/
theorem cleanupRoom_identity_guard (m : Manager) (inst : RoomInstance) (cur : RoomInstance)
    (h : alookup m.rooms inst.room.id = some cur) :
    (alookup (CleanupRoom m inst).rooms inst.room.id = none ↔
        ParticipantCount inst.room = 0 ∧ cur.ref = inst.ref) ∧
    (cur.ref ≠ inst.ref → CleanupRoom m inst = m) ∧
    (∀ id2, id2 ≠ inst.room.id →
        alookup (CleanupRoom m inst).rooms id2 = alookup m.rooms id2) := by
  by_cases hc : ParticipantCount inst.room > 0
  · have hm : CleanupRoom m inst = m := by simp [CleanupRoom, hc]
    refine ⟨?_, fun _ => hm, fun id2 _ => by rw [hm]⟩
    rw [hm, h]
    exact ⟨fun habs => absurd habs (by simp), fun ⟨h0, _⟩ => absurd h0 (by omega)⟩
  · have hc0 : ParticipantCount inst.room = 0 := Nat.eq_zero_of_not_pos hc
    by_cases hr : cur.ref = inst.ref
    · have hclean : CleanupRoom m inst = { m with rooms := aerase m.rooms inst.room.id } := by
        simp [CleanupRoom, hc, h, hr]
      refine ⟨?_, fun hne => absurd hr hne, ?_⟩
      · rw [hclean]
        simp [alookup_aerase]
        exact ⟨hc0, hr⟩
      · intro id2 hne
        rw [hclean]
        simp [alookup_aerase, hne]
    · have hm : CleanupRoom m inst = m := by simp [CleanupRoom, hc, h, hr]
      refine ⟨?_, fun _ => hm, fun id2 _ => by rw [hm]⟩
      rw [hm, h]
      exact ⟨fun habs => absurd habs (by simp), fun ⟨_, h2⟩ => absurd h2 hr⟩

/-- Witness for C8: the empty example room is removed because the
registry holds that exact instance. -/
theorem cleanupRoom_identity_guard_witness :
    alookup mEx.rooms instEx.room.id = some instEx ∧
    ((alookup (CleanupRoom mEx instEx).rooms instEx.room.id = none ↔
        ParticipantCount instEx.room = 0 ∧ instEx.ref = instEx.ref) ∧
     (instEx.ref ≠ instEx.ref → CleanupRoom mEx instEx = mEx) ∧
     (∀ id2, id2 ≠ instEx.room.id →
        alookup (CleanupRoom mEx instEx).rooms id2 = alookup mEx.rooms id2)) :=
  ⟨by decide, cleanupRoom_identity_guard mEx instEx instEx (by decide)⟩

/-- C1 (code bug evidence): after `user_7` re-attaches with the new
token `tok_b`, the participant's current token is `tok_b`, yet
`FindByToken` with `tok_b` fails with `InvalidToken` (the index was
never updated) and the stale old token `tok_a` still maps to the
participant — the token-index invariant and the
reconnect-with-new-token flow are broken. -/
theorem tokenIndex_stale_on_reattach :
    (alookup rRe.participants "user_7").map Participant.token = some "tok_b" ∧
    FindByToken rRe "tok_b" = .error .invalidToken ∧
    alookup rRe.tokenIndex "tok_b" = none ∧
    alookup rRe.tokenIndex "tok_a" = some "user_7" :=
  ⟨by decide, by rfl, by decide, by decide⟩

theorem sendToPid_playback (r : Room) (pid : String) (e : Envelope) :
    (sendToPid r pid e).position = r.position ∧
    (sendToPid r pid e).videoURL = r.videoURL ∧
    (sendToPid r pid e).isPlaying = r.isPlaying ∧
    (sendToPid r pid e).updatedAt = r.updatedAt ∧
    (sendToPid r pid e).ownerID = r.ownerID ∧
    (sendToPid r pid e).tokenIndex = r.tokenIndex ∧
    (sendToPid r pid e).id = r.id := by
  cases h : alookup r.participants pid <;> simp [sendToPid, h]

theorem sendToPid_lookup_ne (r : Room) (pid : String) (e : Envelope) (q : String)
    (hne : q ≠ pid) :
    alookup (sendToPid r pid e).participants q = alookup r.participants q := by
  cases h : alookup r.participants pid with
  | none => simp [sendToPid, h]
  | some p => simp [sendToPid, h, alookup_ainsert_ne _ _ _ _ hne]

theorem sendToPid_lookup_self (r : Room) (pid : String) (e : Envelope) (p : Participant)
    (hp : alookup r.participants pid = some p) :
    alookup (sendToPid r pid e).participants pid = some (Send p e) := by
  simp [sendToPid, hp, alookup_ainsert_self]

/-- C2 counterexample: in the state `CreateRoom` leaves behind, a
malformed inbound frame from the bound host, and a CONTROL frame whose
payload fails to parse, leave the room — every mailbox included —
exactly unchanged: no ERROR envelope is sent to the offending sender. -/
theorem clientInputError_silently_dropped :
    readLoopStep rEx "user_1" 5 Frame.malformed = rEx ∧
    readLoopStep rEx "user_1" 5 (Frame.control none) = rEx :=
  ⟨by decide, by decide⟩

/-- C2 (amended): malformed JSON is always dropped silently; a CONTROL
whose payload fails to parse is dropped silently when the sender is the
host, and — because the authorization check precedes payload parsing —
answered with an `unauthorized` ERROR envelope to the sender only when
it is not; an unknown kind is answered with an `unknown_kind` ERROR
envelope to the sender only.  In every case nothing is broadcast, no
other participant's mailbox changes, playback state and the token index
are unchanged, and the connection stays open (the loop continues). -/
theorem readLoopStep_client_errors (r : Room) (pid : String) (now : Int) :
    readLoopStep r pid now .malformed = r ∧
    (∀ p, alookup r.participants pid = some p → p.isHost = true →
        readLoopStep r pid now (.control none) = r) ∧
    (∀ p, alookup r.participants pid = some p → p.isHost = false →
        readLoopStep r pid now (.control none) =
          sendToPid r pid (.errorEnv "unauthorized" "only host can control playback")) ∧
    (∀ kind : String,
        (readLoopStep r pid now (.unknown kind)).position = r.position ∧
        (readLoopStep r pid now (.unknown kind)).videoURL = r.videoURL ∧
        (readLoopStep r pid now (.unknown kind)).isPlaying = r.isPlaying ∧
        (readLoopStep r pid now (.unknown kind)).updatedAt = r.updatedAt ∧
        (readLoopStep r pid now (.unknown kind)).tokenIndex = r.tokenIndex ∧
        (∀ q, q ≠ pid → alookup (readLoopStep r pid now (.unknown kind)).participants q
            = alookup r.participants q) ∧
        (∀ p, alookup r.participants pid = some p →
            alookup (readLoopStep r pid now (.unknown kind)).participants pid
              = some (Send p (.errorEnv "unknown_kind" "unsupported message type")))) := by
  refine ⟨rfl, ?_, ?_, ?_⟩
  · intro p hp hh
    have h1 : readLoopStep r pid now (.control none) =
        (if !p.isHost then
          sendToPid r pid (.errorEnv "unauthorized" "only host can control playback")
        else r) := by
      simp only [readLoopStep, hp]
    rw [h1, hh]
    simp
  · intro p hp hh
    have h1 : readLoopStep r pid now (.control none) =
        (if !p.isHost then
          sendToPid r pid (.errorEnv "unauthorized" "only host can control playback")
        else r) := by
      simp only [readLoopStep, hp]
    rw [h1, hh]
    simp
  · intro kind
    have hstep : readLoopStep r pid now (.unknown kind) =
        sendToPid r pid (.errorEnv "unknown_kind" "unsupported message type") := rfl
    rw [hstep]
    obtain ⟨h1, h2, h3, h4, _, h6, _⟩ :=
      sendToPid_playback r pid (.errorEnv "unknown_kind" "unsupported message type")
    exact ⟨h1, h2, h3, h4, h6,
      fun q hq => sendToPid_lookup_ne r pid _ q hq,
      fun p hp => sendToPid_lookup_self r pid _ p hp⟩

/-- Witness for C2 (amended) at the guest: an unparseable CONTROL from
the non-host guest earns the `unauthorized` ERROR envelope. -/
theorem readLoopStep_client_errors_witness :
    alookup rEx2.participants "user_2" = some guestP ∧ guestP.isHost = false ∧
    readLoopStep rEx2 "user_2" 5 (Frame.control none) =
      sendToPid rEx2 "user_2" (.errorEnv "unauthorized" "only host can control playback") :=
  ⟨by decide, rfl,
    (readLoopStep_client_errors rEx2 "user_2" 5).2.2.1 guestP (by decide) rfl⟩

/-- C3 (code bug evidence): `generateID` draws from `rand.Intn(900)`,
so a fixed prefix has only 900 possible ids; any 901 draws contain two
distinct calls producing the same id — the namespace cannot have
negligible collision probability within process lifetime. -/
theorem generateID_small_namespace (f : Fin 901 → Fin 900) :
    ∃ i j : Fin 901, i ≠ j ∧ generateID "room" (f i) = generateID "room" (f j) := by
  have hcard : Fintype.card (Fin 900) < Fintype.card (Fin 901) := by
    rw [Fintype.card_fin, Fintype.card_fin]
    omega
  obtain ⟨i, j, hne, heq⟩ := Fintype.exists_ne_map_eq_of_card_lt f hcard
  exact ⟨i, j, hne, by rw [heq]⟩

theorem applyControl_preserves (r : Room) (s : String) (c : ControlMessage) :
    (ApplyControl r s c).1.participants = r.participants ∧
    (ApplyControl r s c).1.ownerID = r.ownerID := by
  cases hl : alookup r.participants s with
  | none => simp [ApplyControl, hl]
  | some p => cases hh : p.isHost <;> simp [ApplyControl, hl, hh]

theorem ownerInv_applyOp (u0 : String) (r : Room) (op : Op)
    (hinv : OwnerInv u0 r) (hop : opHostOk u0 op = true) :
    OwnerInv u0 (applyOp r op) := by
  obtain ⟨ho, hparts⟩ := hinv
  cases op with
  | attach u n t h =>
      simp only [applyOp]
      cases hl : alookup r.participants u with
      | some p =>
          simp only [AttachParticipant, hl]
          refine ⟨ho, ?_⟩
          intro k q hk
          by_cases hku : k = u
          · subst hku
            rw [alookup_ainsert_self] at hk
            injection hk with hq
            subst hq
            exact hparts k p hl
          · rw [alookup_ainsert_ne _ _ _ _ hku] at hk
            exact hparts k q hk
      | none =>
          simp only [AttachParticipant, hl]
          cases h with
          | true =>
              have hu : u = u0 := by simpa [opHostOk] using hop
              refine ⟨by simpa using hu, ?_⟩
              intro k q hk
              by_cases hku : k = u
              · subst hku
                rw [alookup_ainsert_self] at hk
                injection hk with hq
                subst hq
                exact ⟨rfl, fun _ => hu⟩
              · rw [alookup_ainsert_ne _ _ _ _ hku] at hk
                exact hparts k q hk
          | false =>
              refine ⟨by simpa using ho, ?_⟩
              intro k q hk
              by_cases hku : k = u
              · subst hku
                rw [alookup_ainsert_self] at hk
                injection hk with hq
                subst hq
                exact ⟨rfl, fun hh => by cases hh⟩
              · rw [alookup_ainsert_ne _ _ _ _ hku] at hk
                exact hparts k q hk
  | detach pid =>
      simp only [applyOp]
      cases hl : alookup r.participants pid with
      | none => rw [detach_not_mem r pid hl]; exact ⟨ho, hparts⟩
      | some p =>
          constructor
          · simp only [DetachParticipant, hl]
            exact ho
          · intro k q hk
            simp only [DetachParticipant, hl] at hk
            rw [alookup_aerase] at hk
            by_cases hkp : k = pid
            · rw [if_pos hkp] at hk; cases hk
            · rw [if_neg hkp] at hk; exact hparts k q hk
  | control s c =>
      obtain ⟨hp, hoeq⟩ := applyControl_preserves r s c
      simp only [applyOp]
      refine ⟨by rw [hoeq]; exact ho, ?_⟩
      intro k q hk
      rw [hp] at hk
      exact hparts k q hk

theorem ownerInv_applyOps (u0 : String) (ops : List Op) (r : Room)
    (hinv : OwnerInv u0 r) (hops : ∀ op ∈ ops, opHostOk u0 op = true) :
    OwnerInv u0 (applyOps r ops) := by
  induction ops generalizing r with
  | nil => exact hinv
  | cons op rest ih =>
      exact ih (applyOp r op)
        (ownerInv_applyOp u0 r op hinv (hops op (by simp)))
        (fun o ho => hops o (by simp [ho]))

/-- C6 counterexample: immediately after `NewRoom` (the state
`CreateRoom` creates before attaching the host) the snapshot's
`ownerId` is already the creation owner id — set, not unset — while no
participant at all is attached; and driving `AttachParticipant` with
`isHost = true` for two distinct user ids leaves two attached
participants that both report `isHost = true`. -/
theorem ownerId_claim_counterexample :
    (StateSnapshot (NewRoom "room_5" "user_5" "http://v" 0)).ownerId = "user_5" ∧
    (NewRoom "room_5" "user_5" "http://v" 0).participants = [] ∧
    "user_5" ≠ "" ∧
    (alookup rTwoHosts.participants "user_a").map Participant.isHost = some true ∧
    (alookup rTwoHosts.participants "user_b").map Participant.isHost = some true ∧
    "user_a" ≠ "user_b" := by
  decide

/-- C6 (amended): for a room created by `NewRoom` with owner `u0` and
any operation sequence whose host-flagged attaches all use `u0` (the
way `Manager` drives rooms), the snapshot's `ownerId` always equals
`u0` — it is set from creation, before the host attaches and after the
host detaches — and no two distinct attached participants both have
`isHost = true`. -/
theorem owner_invariant_amended (roomID u0 url : String) (t : Int) (ops : List Op)
    (h : ∀ op ∈ ops, opHostOk u0 op = true) :
    (StateSnapshot (applyOps (NewRoom roomID u0 url t) ops)).ownerId = u0 ∧
    (∀ k1 k2 p1 p2,
        alookup (applyOps (NewRoom roomID u0 url t) ops).participants k1 = some p1 →
        alookup (applyOps (NewRoom roomID u0 url t) ops).participants k2 = some p2 →
        p1.isHost = true → p2.isHost = true → k1 = k2) := by
  have hinv0 : OwnerInv u0 (NewRoom roomID u0 url t) := by
    refine ⟨rfl, ?_⟩
    intro k p hk
    simp [NewRoom, alookup] at hk
  obtain ⟨ho, hparts⟩ := ownerInv_applyOps u0 ops _ hinv0 h
  refine ⟨ho, ?_⟩
  intro k1 k2 p1 p2 h1 h2 hh1 hh2
  rw [(hparts k1 p1 h1).2 hh1, (hparts k2 p2 h2).2 hh2]

/-- Witness for C6 (amended): host attach, guest attach, guest detach. -/
theorem owner_invariant_amended_witness :
    (∀ op ∈ opsEx, opHostOk "user_1" op = true) ∧
    ((StateSnapshot (applyOps (NewRoom "room_1" "user_1" "http://v" 0) opsEx)).ownerId
        = "user_1" ∧
     (∀ k1 k2 p1 p2,
        alookup (applyOps (NewRoom "room_1" "user_1" "http://v" 0) opsEx).participants k1
          = some p1 →
        alookup (applyOps (NewRoom "room_1" "user_1" "http://v" 0) opsEx).participants k2
          = some p2 →
        p1.isHost = true → p2.isHost = true → k1 = k2)) :=
  ⟨by decide, owner_invariant_amended "room_1" "user_1" "http://v" 0 opsEx (by decide)⟩

end Wethu
